import Mathlib

/-!
# Admission validation of `GCPMachineTemplate` (api/v1beta1)

A shallow embedding of `api/v1beta1/gcpmachinetemplate_webhook.go`:

* `GCPMachineTemplate.validateConfidentialCompute`, `ValidateCreate`,
  `ValidateUpdate`, `ValidateDelete`, `Default` are translated from the Go
  source, statement by statement;
* the Go and Kubernetes library calls they make (`strings.Split`,
  `strings.Contains`, `reflect.DeepEqual`, `delete`, `field.Forbidden`,
  `field.InternalError`, `apierrors.NewInvalid`, `errors.Wrap`) are modelled
  by their documented behaviour on the values that can occur here;
* the API types and the package constant
  `confidentialComputeSupportedMachineSeries` are declared in files that are
  not part of the sources at hand; they are modelled from the specification or
  taken as parameters, and every such definition says so.

Go strings are modelled by Lean strings (sequences of code points); an `error`
result is an `Option`, `none` standing for `nil`.  Logging is not modelled.
-/

/-! ## Go library: `strings` -/

namespace strings

/-- The list-level worker of `strings.Contains`: does `substr` start at some
position of `s`? -/
def containsChars : List Char → List Char → Bool
  | [], substr => substr.isEmpty
  | c :: cs, substr => substr.isPrefixOf (c :: cs) || containsChars cs substr

/-- Go `strings.Contains(s, substr)`: reports whether `substr` is within `s`. -/
def Contains (s substr : String) : Bool :=
  containsChars s.data substr.data

/-- The list-level worker of `strings.Split` for a one-character separator:
the pieces of `s` between the occurrences of `sep`. -/
def splitChars (sep : Char) : List Char → List (List Char)
  | [] => [[]]
  | c :: cs =>
    if c = sep then [] :: splitChars sep cs
    else
      match splitChars sep cs with
      | [] => [[c]]
      | piece :: pieces => (c :: piece) :: pieces

/-- Go `strings.Split(s, sep)` for a separator of one character (the only call
in the webhook passes `"-"`): `s` cut at every occurrence of `sep`; a string
without `sep` comes back as the one-element slice `[s]`. -/
def Split (s : String) (sep : Char) : List String :=
  (splitChars sep s.data).map String.mk

/-- Go `strings.Join(elems, sep)`. -/
def Join : List String → String → String
  | [], _ => ""
  | [a], _ => a
  | a :: b :: rest, sep => a ++ sep ++ Join (b :: rest) sep

end strings

/-! ## API types -/

/-- Modelled from the spec: the type `HostMaintenancePolicy` is declared outside
the sources at hand; section 3 gives it the two values `Migrate` and
`Terminate`, which the webhook names `HostMaintenancePolicyMigrate` and
`HostMaintenancePolicyTerminate`. -/
inductive HostMaintenancePolicy where
  | Migrate
  | Terminate
  deriving DecidableEq, Repr

/-- Modelled from the spec: the text of a `HostMaintenancePolicy` constant, as
`fmt.Errorf` prints it with `%s`. -/
def HostMaintenancePolicy.toString : HostMaintenancePolicy → String
  | .Migrate => "Migrate"
  | .Terminate => "Terminate"

/-- Modelled from the spec: the type `ConfidentialComputePolicy` is declared
outside the sources at hand; section 3 gives it the two values `Disabled` and
`Enabled`. -/
inductive ConfidentialComputePolicy where
  | Enabled
  | Disabled
  deriving DecidableEq, Repr

/-- Modelled from the spec: the text of a `ConfidentialComputePolicy`
constant. -/
def ConfidentialComputePolicy.toString : ConfidentialComputePolicy → String
  | .Enabled => "Enabled"
  | .Disabled => "Disabled"

/-- Modelled from the spec: `GCPMachineSpec` is declared outside the sources at
hand.  The fields are the ones the webhook and its test read
(`InstanceType`, `OnHostMaintenance`, `ConfidentialCompute`) and the three
fields section 3 declares mutable.  Pointer fields are options, and every field
defaults to its Go zero value. -/
structure GCPMachineSpec where
  InstanceType : String := ""
  ProviderID : Option String := none
  AdditionalLabels : List (String × String) := []
  AdditionalNetworkTags : List String := []
  OnHostMaintenance : Option HostMaintenancePolicy := none
  ConfidentialCompute : Option ConfidentialComputePolicy := none
  deriving DecidableEq, Repr

/-- Modelled from the spec: the resource wrapped by a template
(`r.Spec.Template`), holding the machine spec as `Spec`. -/
structure GCPMachineTemplateResource where
  Spec : GCPMachineSpec := {}
  deriving DecidableEq, Repr

/-- Modelled from the spec: the spec of a template (`r.Spec`), holding the
wrapped resource as `Template`. -/
structure GCPMachineTemplateSpec where
  Template : GCPMachineTemplateResource := {}
  deriving DecidableEq, Repr

/-- Modelled from the spec: `GCPMachineTemplate` is declared outside the
sources at hand.  The webhook reads `r.Name` (object metadata) and
`r.Spec.Template.Spec`. -/
structure GCPMachineTemplate where
  Name : String := ""
  Spec : GCPMachineTemplateSpec := {}
  deriving DecidableEq, Repr

/-! ## The confidential-compute rule and `ValidateCreate` -/

/-- The text `fmt.Errorf` builds when `OnHostMaintenance` is absent or
`Migrate`; both `%s` arguments are constants. -/
def onHostMaintenanceMessage : String :=
  "ConfidentialCompute require OnHostMaintenance to be set to "
    ++ HostMaintenancePolicy.Terminate.toString
    ++ ", the current value is: "
    ++ HostMaintenancePolicy.Migrate.toString

/-- The text `fmt.Errorf` builds when the machine series is not accepted. -/
def machineSeriesMessage (confidentialComputeSupportedMachineSeries : String) : String :=
  "ConfidentialCompute require instance type in the following series: "
    ++ confidentialComputeSupportedMachineSeries

/-- The expression `strings.Split(InstanceType, "-")[0]`.  The slice returned by
`Split` is never empty (`strings.split_ne_nil`), so the index cannot fail and
the default of `headD` is never used. -/
def machineSeriesOf (instanceType : String) : String :=
  (strings.Split instanceType '-').headD ""

/-- `GCPMachineTemplate.validateConfidentialCompute`, lines 105-117.  The
package constant `confidentialComputeSupportedMachineSeries` is declared outside
the sources at hand and is a parameter. -/
def GCPMachineTemplate.validateConfidentialCompute
    (confidentialComputeSupportedMachineSeries : String) (r : GCPMachineTemplate) :
    Option String :=
  if r.Spec.Template.Spec.ConfidentialCompute = some ConfidentialComputePolicy.Enabled then
    if r.Spec.Template.Spec.OnHostMaintenance = none
        ∨ r.Spec.Template.Spec.OnHostMaintenance = some HostMaintenancePolicy.Migrate then
      some onHostMaintenanceMessage
    else
      let machineSeries := machineSeriesOf r.Spec.Template.Spec.InstanceType
      if machineSeries = ""
          ∨ ¬ strings.Contains confidentialComputeSupportedMachineSeries machineSeries then
        some (machineSeriesMessage confidentialComputeSupportedMachineSeries)
      else
        none
  else
    none

/-- `GCPMachineTemplate.ValidateCreate`, lines 48-52. -/
def GCPMachineTemplate.ValidateCreate
    (confidentialComputeSupportedMachineSeries : String) (r : GCPMachineTemplate) :
    Option String :=
  r.validateConfidentialCompute confidentialComputeSupportedMachineSeries

/-- `GCPMachineTemplate.ValidateDelete`, lines 94-98. -/
def GCPMachineTemplate.ValidateDelete (_r : GCPMachineTemplate) : Option String :=
  none

/-- `GCPMachineTemplate.Default`, lines 101-103: the receiver after the call. -/
def GCPMachineTemplate.Default (r : GCPMachineTemplate) : GCPMachineTemplate :=
  r

/-! ## Generic documents (`map[string]interface{}`) -/

/-- A value of the generic representation produced by
`runtime.DefaultUnstructuredConverter.ToUnstructured`: `nil`, a `bool`, an
`int64`, a `string`, a `[]interface{}` or a `map[string]interface{}`.  A map is
the list of its entries.  API objects hold no floating-point fields, so no
`float64` occurs; nil maps and nil slices are converted to `nil`, so every map
and slice in a document is non-nil. -/
inductive Value where
  | null : Value
  | bool (b : Bool) : Value
  | int (i : Int) : Value
  | str (s : String) : Value
  | slice (xs : List Value) : Value
  | map (m : List (String × Value)) : Value

/-- The Go type `map[string]interface{}`: the entries of the map. -/
abbrev Unstructured := List (String × Value)

namespace Value

/-- The map index expression `m[key]`: the value stored under `key`, `none`
when the key is absent. -/
def mapIndex (key : String) : List (String × Value) → Option Value
  | [] => none
  | (k, v) :: rest => if k = key then some v else mapIndex key rest

/-- The keys of a map. -/
def keys (m : List (String × Value)) : List String :=
  m.map Prod.fst

mutual
/-- A document is a Go value only if no map in it holds a key twice. -/
def wellFormed : Value → Bool
  | slice xs => wellFormedSlice xs
  | map m => wellFormedMap m
  | _ => true
/-- All elements of a slice are well formed. -/
def wellFormedSlice : List Value → Bool
  | [] => true
  | x :: xs => wellFormed x && wellFormedSlice xs
/-- All keys of a map are distinct and all its values are well formed. -/
def wellFormedMap : List (String × Value) → Bool
  | [] => true
  | (k, v) :: rest => (mapIndex k rest).isNone && wellFormed v && wellFormedMap rest
end

end Value

namespace Go

/-- The Go builtin `delete(m, key)`: the map without the entry for `key`. -/
def delete (m : Unstructured) (key : String) : Unstructured :=
  m.filter (fun e => e.1 != key)

/-- What a call of a Go function of result type `error` does: it returns an
error value (`none` for `nil`) or it panics. -/
inductive Result (ε : Type) where
  | returned (err : Option ε)
  | panicked
  deriving DecidableEq, Repr

end Go

namespace reflect

mutual
/-- Go `reflect.DeepEqual` on two `interface{}` values of a document: equal
dynamic types and deeply equal contents. -/
def deepValueEqual : Value → Value → Bool
  | .null, .null => true
  | .bool a, .bool b => a == b
  | .int a, .int b => a == b
  | .str a, .str b => a == b
  | .slice xs, .slice ys => deepSliceEqual xs ys
  | .map m1, .map m2 => m1.length == m2.length && deepMapEqual m1 m2
  | _, _ => false
/-- Slices are deeply equal when they have the same length and their
corresponding elements are deeply equal. -/
def deepSliceEqual : List Value → List Value → Bool
  | [], [] => true
  | x :: xs, y :: ys => deepValueEqual x y && deepSliceEqual xs ys
  | _, _ => false
/-- The loop over the entries of the first map: every key must be present in
the second map with a deeply equal value. -/
def deepMapEqual : List (String × Value) → List (String × Value) → Bool
  | [], _ => true
  | (k, v) :: rest, m2 =>
    (match Value.mapIndex k m2 with
     | some v2 => deepValueEqual v v2
     | none => false) && deepMapEqual rest m2
end

/-- Go `reflect.DeepEqual` on two non-nil `map[string]interface{}` values: same
length, and every key of the first maps to a deeply equal value in the
second. -/
def DeepEqual (m1 m2 : Unstructured) : Bool :=
  deepValueEqual (.map m1) (.map m2)

end reflect

/-! ## Kubernetes library: field errors and `apierrors.NewInvalid` -/

namespace field

/-- The two `field.ErrorType` values the webhook produces. -/
inductive ErrorType where
  | ErrorTypeForbidden
  | ErrorTypeInternal
  deriving DecidableEq, Repr

/-- A `*field.Path`: `none` is the nil path. -/
abbrev Path := Option String

/-- `field.NewPath(name)`. -/
def NewPath (name : String) : Path := some name

/-- `(*Path).String()`; the nil path prints as `<nil>`. -/
def Path.String : Path → String
  | some name => name
  | none => "<nil>"

/-- A `field.Error`: its type, the printed path of the field, the bad value
(`none` for `nil`) and the detail text. -/
structure Error where
  Type_ : ErrorType
  Field : String
  BadValue : Option String
  Detail : String
  deriving DecidableEq, Repr

/-- `field.Forbidden(path, detail)`. -/
def Forbidden (path : Path) (detail : String) : Error :=
  { Type_ := .ErrorTypeForbidden, Field := Path.String path, BadValue := some "", Detail := detail }

/-- `field.InternalError(path, err)`, `err` given by its message. -/
def InternalError (path : Path) (err : String) : Error :=
  { Type_ := .ErrorTypeInternal, Field := Path.String path, BadValue := none, Detail := err }

end field

namespace errors

/-- `errors.Wrap(err, message)` of github.com/pkg/errors, by its message:
`message: err`. -/
def Wrap (err message : String) : String :=
  message ++ ": " ++ err

end errors

namespace schema

/-- A `schema.GroupKind`. -/
structure GroupKind where
  Group : String
  Kind : String
  deriving DecidableEq, Repr

end schema

namespace apierrors

/-- The `metav1.StatusReason` values used here. -/
inductive StatusReason where
  | StatusReasonInvalid
  deriving DecidableEq, Repr

/-- An `*apierrors.StatusError`: reason, HTTP code, and the details (group,
kind and name of the object, and one cause per field error, kept here as the
field error it is built from). -/
structure StatusError where
  Reason : StatusReason
  Code : Nat
  Group : String
  Kind : String
  Name : String
  Causes : List field.Error
  deriving DecidableEq, Repr

/-- `apierrors.NewInvalid(qualifiedKind, name, errs)`: a 422 status of reason
`Invalid` with one cause per element of `errs`. -/
def NewInvalid (qualifiedKind : schema.GroupKind) (name : String) (errs : List field.Error) :
    StatusError :=
  { Reason := .StatusReasonInvalid, Code := 422, Group := qualifiedKind.Group,
    Kind := qualifiedKind.Kind, Name := name, Causes := errs }

end apierrors

/-! ## `ValidateUpdate` -/

/-- Modelled from the spec: `GroupVersion.WithKind("GCPMachineTemplate").GroupKind()`.
The package variable `GroupVersion` is declared outside the sources at hand; its
group is the one named by the kubebuilder markers of the webhook. -/
def gcpMachineTemplateGroupKind : schema.GroupKind :=
  { Group := "infrastructure.cluster.x-k8s.io", Kind := "GCPMachineTemplate" }

/-- The type assertion `doc["spec"].(map[string]interface{})`: the map stored
under `spec`; `none` when the assertion panics (key absent, or not a map). -/
def specOf (doc : Unstructured) : Option Unstructured :=
  match Value.mapIndex "spec" doc with
  | some (.map m) => some m
  | _ => none

/-- The three `delete` statements applied to one spec document, lines 72-82. -/
def deleteMutable (spec : Unstructured) : Unstructured :=
  Go.delete (Go.delete (Go.delete spec "providerID") "additionalLabels") "additionalNetworkTags"

/-- The error returned at lines 85-87. -/
def immutableError (name : String) : apierrors.StatusError :=
  apierrors.NewInvalid gcpMachineTemplateGroupKind name
    [field.Forbidden (field.NewPath "spec") "cannot be modified"]

/-- The error returned at lines 58-60 (`which` is `new`) and 64-66 (`which` is
`old`). -/
def conversionError (name which err : String) : apierrors.StatusError :=
  apierrors.NewInvalid gcpMachineTemplateGroupKind name
    [field.InternalError none
      (errors.Wrap err ("failed to convert " ++ which ++ " GCPMachineTemplate to unstructured object"))]

/-- `GCPMachineTemplate.ValidateUpdate`, lines 55-91.  The library converter
`runtime.DefaultUnstructuredConverter.ToUnstructured` is a parameter: it gives
the document of an object or fails with a message. -/
def GCPMachineTemplate.ValidateUpdate
    (ToUnstructured : GCPMachineTemplate → Except String Unstructured)
    (r old : GCPMachineTemplate) : Go.Result apierrors.StatusError :=
  match ToUnstructured r with
  | .error err => .returned (some (conversionError r.Name "new" err))
  | .ok newGCPMachineTemplate =>
    match ToUnstructured old with
    | .error err => .returned (some (conversionError r.Name "old" err))
    | .ok oldGCPMachineTemplate =>
      match specOf newGCPMachineTemplate with
      | none => .panicked
      | some newGCPMachineTemplateSpec =>
        match specOf oldGCPMachineTemplate with
        | none => .panicked
        | some oldGCPMachineTemplateSpec =>
          if ! reflect.DeepEqual (deleteMutable oldGCPMachineTemplateSpec)
              (deleteMutable newGCPMachineTemplateSpec) then
            .returned (some (immutableError r.Name))
          else
            .returned none

/-! ## The converter on the modelled types -/

/-- An optional entry of a document: present only when the field is set
(`omitempty`). -/
def optionalEntry (key : String) : Option Value → Unstructured
  | some v => [(key, v)]
  | none => []

/-- Modelled from the spec: the document of a `GCPMachineSpec`, one entry per
field under its JSON name; unset pointers, empty maps and empty slices are
omitted. -/
def GCPMachineSpec.toUnstructured (s : GCPMachineSpec) : Unstructured :=
  [("instanceType", Value.str s.InstanceType)]
    ++ optionalEntry "providerID" (s.ProviderID.map Value.str)
    ++ optionalEntry "additionalLabels"
        (if s.AdditionalLabels.isEmpty then none
         else some (Value.map (s.AdditionalLabels.map fun kv => (kv.1, Value.str kv.2))))
    ++ optionalEntry "additionalNetworkTags"
        (if s.AdditionalNetworkTags.isEmpty then none
         else some (Value.slice (s.AdditionalNetworkTags.map Value.str)))
    ++ optionalEntry "onHostMaintenance"
        (s.OnHostMaintenance.map fun p => Value.str p.toString)
    ++ optionalEntry "confidentialCompute"
        (s.ConfidentialCompute.map fun p => Value.str p.toString)

/-- Modelled from the spec: the document the library converter builds for a
`GCPMachineTemplate`: the name under `metadata`, and under `spec` the template
spec, whose only entry `template` holds the machine spec under `spec` (section
3: a template wraps one spec nested under a template path). -/
def GCPMachineTemplate.toUnstructured (r : GCPMachineTemplate) : Unstructured :=
  [("metadata", Value.map [("name", Value.str r.Name)]),
   ("spec", Value.map
      [("template", Value.map [("spec", Value.map r.Spec.Template.Spec.toUnstructured)])])]

/-- Modelled from the spec: `runtime.DefaultUnstructuredConverter.ToUnstructured`
on a `GCPMachineTemplate`; the conversion of such an object does not fail. -/
def DefaultUnstructuredConverter (r : GCPMachineTemplate) : Except String Unstructured :=
  .ok r.toUnstructured

/-! ## Field-wise comparison and concrete inputs -/

/-- Two optional values of a document are the same field value: both absent, or
both present and deeply equal. -/
def sameField : Option Value → Option Value → Bool
  | none, none => true
  | some v, some w => reflect.deepValueEqual v w
  | _, _ => false

/-- The keys `ValidateUpdate` deletes from both spec documents. -/
def mutableKeys : List String :=
  ["providerID", "additionalLabels", "additionalNetworkTags"]

/-- Modelled from the spec: a set of supported machine series; section 8 names
`n2d` as a member. -/
def exampleSupportedSeries : List String := ["n2d", "c2d"]

/-- Modelled from the spec: a value of the supported-series constant, the
series names joined by a delimiter (section 3). -/
def exampleSupportedConstant : String := strings.Join exampleSupportedSeries ","

/-- A template with the given machine spec. -/
def templateOf (name : String) (spec : GCPMachineSpec) : GCPMachineTemplate :=
  { Name := name, Spec := { Template := { Spec := spec } } }

/-- A machine spec with a provider ID, labels and network tags set. -/
def storedSpec : GCPMachineSpec :=
  { InstanceType := "n2d-standard-4",
    ProviderID := some "gce://project/zone/worker-a",
    AdditionalLabels := [("team", "infra")],
    AdditionalNetworkTags := ["internal"] }

/-- The second spec of `TestGCPMachine_ValidateCreate` (lines 44-53):
confidential compute enabled, `OnHostMaintenance` set to `Terminate`,
`InstanceType` left empty. -/
def testSpecEnabledTerminate : GCPMachineSpec :=
  { OnHostMaintenance := some HostMaintenancePolicy.Terminate,
    ConfidentialCompute := some ConfidentialComputePolicy.Enabled }

/-- A spec that leaves `ConfidentialCompute` unset, with `OnHostMaintenance`
set to `Terminate` and an instance type of the series `n2d`. -/
def terminateOnlySpec : GCPMachineSpec :=
  { InstanceType := "n2d-standard-4",
    OnHostMaintenance := some HostMaintenancePolicy.Terminate }

/-- A spec with confidential compute enabled, `OnHostMaintenance` set to
`Terminate` and an instance type of the series `n2`. -/
def enabledN2Spec : GCPMachineSpec :=
  { InstanceType := "n2-standard-4",
    OnHostMaintenance := some HostMaintenancePolicy.Terminate,
    ConfidentialCompute := some ConfidentialComputePolicy.Enabled }

/-- A converter that fails on the objects whose name is listed in `broken` and
converts every other object as the library converter does. -/
def converterFailingOn (broken : List String) (r : GCPMachineTemplate) :
    Except String Unstructured :=
  if r.Name ∈ broken then .error "unsupported type" else DefaultUnstructuredConverter r

/-- A spec the confidential-compute rule rejects: confidential compute enabled
with `OnHostMaintenance` set to `Migrate`. -/
def enabledMigrateSpec : GCPMachineSpec :=
  { InstanceType := "n2d-standard-4",
    OnHostMaintenance := some HostMaintenancePolicy.Migrate,
    ConfidentialCompute := some ConfidentialComputePolicy.Enabled }

/-! ## Facts about the library models -/

theorem strings.splitChars_head (sep : Char) (s : List Char) :
    ∃ pieces, strings.splitChars sep s = s.takeWhile (fun c => c != sep) :: pieces := by
  induction s with
  | nil => exact ⟨[], rfl⟩
  | cons c cs ih =>
    obtain ⟨pieces, hp⟩ := ih
    by_cases h : c = sep
    · exact ⟨strings.splitChars sep cs, by simp [strings.splitChars, h]⟩
    · exact ⟨pieces, by simp [strings.splitChars, h, hp]⟩

theorem strings.split_ne_nil (s : String) (sep : Char) : strings.Split s sep ≠ [] := by
  obtain ⟨pieces, hp⟩ := strings.splitChars_head sep s.data
  simp [strings.Split, hp]

theorem machineSeriesOf_data (instanceType : String) :
    (machineSeriesOf instanceType).data = instanceType.data.takeWhile (fun c => c != '-') := by
  obtain ⟨pieces, hp⟩ := strings.splitChars_head '-' instanceType.data
  simp [machineSeriesOf, strings.Split, hp]

theorem strings.containsChars_iff (s substr : List Char) :
    strings.containsChars s substr = true ↔ substr <:+: s := by
  induction s with
  | nil => simp [strings.containsChars, List.isEmpty_iff]
  | cons c cs ih =>
    simp only [strings.containsChars, Bool.or_eq_true, ih, List.infix_cons_iff,
      List.isPrefixOf_iff_prefix]

theorem strings.contains_iff (s substr : String) :
    strings.Contains s substr = true ↔ substr.data <:+: s.data :=
  strings.containsChars_iff s.data substr.data

theorem strings.join_data_infix (sep : String) :
    ∀ (elems : List String) (a : String), a ∈ elems → a.data <:+: (strings.Join elems sep).data
  | [], a, h => by simp at h
  | [b], a, h => by
    simp at h
    subst h
    exact List.infix_refl _
  | b :: c :: rest, a, h => by
    have hd : (strings.Join (b :: c :: rest) sep).data
        = b.data ++ (sep.data ++ (strings.Join (c :: rest) sep).data) := by
      simp [strings.Join, String.data_append]
    rw [hd]
    rcases List.mem_cons.mp h with h | h
    · subst h
      exact List.IsPrefix.isInfix ( List.prefix_append _ _)
    · have ih := strings.join_data_infix sep (c :: rest) a h
      exact List.IsInfix.trans ih
        ((List.suffix_append _ _).isInfix.trans (List.suffix_append _ _).isInfix)

/-! ## Facts about the confidential-compute rule -/

theorem onHostMaintenance_terminate_iff (p : Option HostMaintenancePolicy) :
    ¬ (p = none ∨ p = some HostMaintenancePolicy.Migrate)
      ↔ p = some HostMaintenancePolicy.Terminate := by
  rcases p with _ | _ | _ <;> simp

theorem validateConfidentialCompute_eq_none_iff (supported : String) (r : GCPMachineTemplate) :
    r.validateConfidentialCompute supported = none ↔
      (r.Spec.Template.Spec.ConfidentialCompute ≠ some ConfidentialComputePolicy.Enabled
        ∨ (r.Spec.Template.Spec.OnHostMaintenance = some HostMaintenancePolicy.Terminate
            ∧ machineSeriesOf r.Spec.Template.Spec.InstanceType ≠ ""
            ∧ strings.Contains supported
                (machineSeriesOf r.Spec.Template.Spec.InstanceType) = true)) := by
  unfold GCPMachineTemplate.validateConfidentialCompute
  by_cases hcc : r.Spec.Template.Spec.ConfidentialCompute = some ConfidentialComputePolicy.Enabled
  · by_cases hohm : r.Spec.Template.Spec.OnHostMaintenance = none
        ∨ r.Spec.Template.Spec.OnHostMaintenance = some HostMaintenancePolicy.Migrate
    · have hne : r.Spec.Template.Spec.OnHostMaintenance ≠ some HostMaintenancePolicy.Terminate := by
        rcases hohm with h | h <;> simp [h]
      simp [hcc, hohm, hne]
    · have ht := (onHostMaintenance_terminate_iff _).mp hohm
      by_cases hs : machineSeriesOf r.Spec.Template.Spec.InstanceType = ""
          ∨ ¬ strings.Contains supported
                (machineSeriesOf r.Spec.Template.Spec.InstanceType) = true
      · have hs2 := hs
        rw [if_pos hcc, if_neg hohm]
        simp only [] 
        rw [if_pos hs]
        simp only [reduceCtorEq, false_iff, not_or, not_and]
        refine ⟨fun h => h hcc, fun _ h1 h2 => ?_⟩
        rcases hs2 with h | h
        · exact absurd h h1
        · exact absurd h2 h
      · rw [if_pos hcc, if_neg hohm]
        simp only []
        rw [if_neg hs]
        simp only [true_iff]
        right
        push_neg at hs
        exact ⟨ht, hs.1, hs.2⟩
  · simp [hcc]

theorem string_eq_empty_iff (s : String) : s = "" ↔ s.data = [] := by
  rw [String.ext_iff]

theorem validateConfidentialCompute_ne_none_iff (supported : String) (r : GCPMachineTemplate) :
    r.validateConfidentialCompute supported ≠ none ↔
      (r.Spec.Template.Spec.ConfidentialCompute = some ConfidentialComputePolicy.Enabled
        ∧ ¬ (r.Spec.Template.Spec.OnHostMaintenance = some HostMaintenancePolicy.Terminate
              ∧ machineSeriesOf r.Spec.Template.Spec.InstanceType ≠ ""
              ∧ (machineSeriesOf r.Spec.Template.Spec.InstanceType).data <:+: supported.data)) := by
  rw [Ne, validateConfidentialCompute_eq_none_iff, strings.contains_iff]
  tauto

/-! ## Facts about documents and `reflect.DeepEqual` -/

theorem Value.mapIndex_mem {key : String} {v : Value} :
    ∀ {m : List (String × Value)}, Value.mapIndex key m = some v → (key, v) ∈ m
  | [], h => by simp [Value.mapIndex] at h
  | (k, w) :: rest, h => by
    by_cases hk : k = key
    · simp [Value.mapIndex, hk] at h
      simp [hk, h]
    · simp [Value.mapIndex, hk] at h
      exact List.mem_cons_of_mem _ (Value.mapIndex_mem h)

theorem Value.mapIndex_eq_none_iff (key : String) :
    ∀ (m : List (String × Value)), Value.mapIndex key m = none ↔ key ∉ Value.keys m
  | [] => by simp [Value.mapIndex, Value.keys]
  | (k, w) :: rest => by
    have ih := Value.mapIndex_eq_none_iff key rest
    by_cases hk : k = key
    · simp [Value.mapIndex, Value.keys, hk]
    · have hk2 : ¬ key = k := fun h => hk h.symm
      simp [Value.mapIndex, hk, hk2, ih, Value.keys]

theorem Go.delete_cons_eq (k : String) (w : Value) (rest : Unstructured) :
    Go.delete ((k, w) :: rest) k = Go.delete rest k := by
  simp [Go.delete, List.filter_cons]

theorem Go.delete_cons_ne {k2 k : String} (h : k2 ≠ k) (w : Value) (rest : Unstructured) :
    Go.delete ((k2, w) :: rest) k = (k2, w) :: Go.delete rest k := by
  simp [Go.delete, List.filter_cons, h]

theorem Value.mapIndex_delete (key k : String) :
    ∀ (m : Unstructured),
      Value.mapIndex key (Go.delete m k) = if key = k then none else Value.mapIndex key m
  | [] => by simp [Go.delete, Value.mapIndex]
  | (k2, w) :: rest => by
    have ih := Value.mapIndex_delete key k rest
    by_cases h1 : k2 = k
    · subst h1
      rw [Go.delete_cons_eq, ih]
      by_cases h2 : key = k2
      · simp [h2]
      · have h3 : ¬ k2 = key := fun h => h2 h.symm
        simp [h2, h3, Value.mapIndex]
    · rw [Go.delete_cons_ne h1, Value.mapIndex, Value.mapIndex, ih]
      by_cases h4 : k2 = key
      · have h2 : ¬ key = k := fun h => h1 (h4.trans h)
        simp [h4, h2]
      · simp [h4]

theorem reflect.deepMapEqual_iff :
    ∀ (m1 m2 : List (String × Value)),
      reflect.deepMapEqual m1 m2 = true ↔
        ∀ k v, (k, v) ∈ m1 →
          ∃ v2, Value.mapIndex k m2 = some v2 ∧ reflect.deepValueEqual v v2 = true
  | [], m2 => by simp [reflect.deepMapEqual]
  | (k, v) :: rest, m2 => by
    have ih := reflect.deepMapEqual_iff rest m2
    rw [reflect.deepMapEqual, Bool.and_eq_true, ih]
    constructor
    · rintro ⟨h1, h2⟩ k' v' hmem
      rcases List.mem_cons.mp hmem with h | h
      · obtain ⟨rfl, rfl⟩ := Prod.mk.inj h
        cases hm : Value.mapIndex k' m2 with
        | none => simp [hm] at h1
        | some v2 => exact ⟨v2, rfl, by simpa [hm] using h1⟩
      · exact h2 k' v' h
    · intro h
      refine ⟨?_, fun k' v' hmem => h k' v' (List.mem_cons_of_mem _ hmem)⟩
      obtain ⟨v2, hv2, hde⟩ := h k v (List.mem_cons_self _ _)
      simp [hv2, hde]

theorem reflect.deepEqual_iff (m1 m2 : Unstructured) :
    reflect.DeepEqual m1 m2 = true ↔
      m1.length = m2.length ∧
        ∀ k v, (k, v) ∈ m1 →
          ∃ v2, Value.mapIndex k m2 = some v2 ∧ reflect.deepValueEqual v v2 = true := by
  unfold reflect.DeepEqual
  rw [reflect.deepValueEqual, Bool.and_eq_true, reflect.deepMapEqual_iff]
  simp

theorem Value.wellFormedMap_iff :
    ∀ (m : List (String × Value)),
      Value.wellFormedMap m = true ↔
        (Value.keys m).Nodup ∧ ∀ k v, (k, v) ∈ m → Value.wellFormed v = true
  | [] => by simp [Value.wellFormedMap, Value.keys]
  | (k, v) :: rest => by
    have ih := Value.wellFormedMap_iff rest
    rw [Value.wellFormedMap, Bool.and_eq_true, Bool.and_eq_true, ih, Option.isNone_iff_eq_none,
      Value.mapIndex_eq_none_iff]
    simp only [Value.keys, List.map_cons, List.nodup_cons, List.mem_cons, Prod.mk.injEq]
    constructor
    · rintro ⟨⟨h1, h2⟩, h3, h4⟩
      refine ⟨⟨h1, h3⟩, ?_⟩
      rintro k' v' (⟨rfl, rfl⟩ | h)
      · exact h2
      · exact h4 k' v' h
    · rintro ⟨⟨h1, h3⟩, h4⟩
      exact ⟨⟨h1, h4 k v (Or.inl ⟨rfl, rfl⟩)⟩, h3, fun k' v' h => h4 k' v' (Or.inr h)⟩

theorem Value.mapIndex_of_mem :
    ∀ {m : List (String × Value)} {key : String} {v : Value},
      (Value.keys m).Nodup → (key, v) ∈ m → Value.mapIndex key m = some v
  | [], _, _, _, h => by simp at h
  | (k, w) :: rest, key, v, hnd, h => by
    simp only [Value.keys, List.map_cons, List.nodup_cons] at hnd
    rcases List.mem_cons.mp h with h | h
    · obtain ⟨rfl, rfl⟩ := Prod.mk.inj h
      simp [Value.mapIndex]
    · have hk : k ≠ key := by
        rintro rfl
        exact hnd.1 (List.mem_map.mpr ⟨(k, v), h, rfl⟩)
      simp only [Value.mapIndex, hk, if_false]
      exact Value.mapIndex_of_mem hnd.2 h

theorem Value.wellFormedMap_delete {m : Unstructured} (k : String)
    (h : Value.wellFormedMap m = true) : Value.wellFormedMap (Go.delete m k) = true := by
  rw [Value.wellFormedMap_iff] at h ⊢
  refine ⟨?_, fun k' v' hmem => h.2 k' v' (List.mem_of_mem_filter hmem)⟩
  exact (h.1.sublist ((List.filter_sublist _).map Prod.fst))

theorem Value.wellFormed_of_mapIndex {m : List (String × Value)} {key : String} {v : Value}
    (h : Value.wellFormedMap m = true) (hv : Value.mapIndex key m = some v) :
    Value.wellFormed v = true :=
  ((Value.wellFormedMap_iff m).mp h).2 key v (Value.mapIndex_mem hv)

mutual
theorem reflect.deepValueEqual_refl :
    ∀ (v : Value), Value.wellFormed v = true → reflect.deepValueEqual v v = true
  | .null, _ => by simp [reflect.deepValueEqual]
  | .bool _, _ => by simp [reflect.deepValueEqual]
  | .int _, _ => by simp [reflect.deepValueEqual]
  | .str _, _ => by simp [reflect.deepValueEqual]
  | .slice xs, h => by
    rw [reflect.deepValueEqual]
    rw [Value.wellFormed] at h
    exact reflect.deepSliceEqual_refl xs h
  | .map m, h => by
    rw [reflect.deepValueEqual]
    rw [Value.wellFormed] at h
    simp only [beq_self_eq_true, Bool.true_and]
    exact reflect.deepMapEqual_refl m m h
      (fun k v hmem => Value.mapIndex_of_mem ((Value.wellFormedMap_iff m).mp h).1 hmem)
theorem reflect.deepSliceEqual_refl :
    ∀ (xs : List Value), Value.wellFormedSlice xs = true → reflect.deepSliceEqual xs xs = true
  | [], _ => by simp [reflect.deepSliceEqual]
  | x :: xs, h => by
    rw [Value.wellFormedSlice, Bool.and_eq_true] at h
    rw [reflect.deepSliceEqual, Bool.and_eq_true]
    exact ⟨reflect.deepValueEqual_refl x h.1, reflect.deepSliceEqual_refl xs h.2⟩
theorem reflect.deepMapEqual_refl :
    ∀ (m m2 : List (String × Value)), Value.wellFormedMap m = true →
      (∀ k v, (k, v) ∈ m → Value.mapIndex k m2 = some v) → reflect.deepMapEqual m m2 = true
  | [], _, _, _ => by simp [reflect.deepMapEqual]
  | (k, v) :: rest, m2, h, hidx => by
    rw [Value.wellFormedMap, Bool.and_eq_true, Bool.and_eq_true] at h
    rw [reflect.deepMapEqual, Bool.and_eq_true]
    refine ⟨?_, reflect.deepMapEqual_refl rest m2 h.2
      (fun k' v' hmem => hidx k' v' (List.mem_cons_of_mem _ hmem))⟩
    rw [hidx k v (List.mem_cons_self _ _)]
    exact reflect.deepValueEqual_refl v h.1.2
end

theorem reflect.deepEqual_refl (m : Unstructured) (h : Value.wellFormedMap m = true) :
    reflect.DeepEqual m m = true := by
  have := reflect.deepValueEqual_refl (.map m) (by rw [Value.wellFormed]; exact h)
  exact this

theorem reflect.deepEqual_sameField {m1 m2 : Unstructured}
    (hnd : (Value.keys m1).Nodup) (h : reflect.DeepEqual m1 m2 = true) (key : String) :
    sameField (Value.mapIndex key m1) (Value.mapIndex key m2) = true := by
  obtain ⟨hlen, hall⟩ := (reflect.deepEqual_iff m1 m2).mp h
  cases h1 : Value.mapIndex key m1 with
  | some v =>
    obtain ⟨v2, hv2, hde⟩ := hall key v (Value.mapIndex_mem h1)
    rw [hv2]
    exact hde
  | none =>
    have hsub : Value.keys m1 ⊆ Value.keys m2 := by
      intro k hk
      obtain ⟨⟨k', v⟩, hmem, rfl⟩ := List.mem_map.mp hk
      obtain ⟨v2, hv2, _⟩ := hall k' v hmem
      exact List.mem_map.mpr ⟨(k', v2), Value.mapIndex_mem hv2, rfl⟩
    have hperm : (Value.keys m1).Perm (Value.keys m2) :=
      (List.subperm_of_subset hnd hsub).perm_of_length_le (by simp [Value.keys, hlen])
    have hnot : key ∉ Value.keys m2 := fun hk =>
      (Value.mapIndex_eq_none_iff key m1).mp h1 (hperm.mem_iff.mpr hk)
    rw [(Value.mapIndex_eq_none_iff key m2).mpr hnot]
    rfl

theorem specOf_wellFormed {doc spec : Unstructured}
    (hwf : Value.wellFormedMap doc = true) (h : specOf doc = some spec) :
    Value.wellFormedMap spec = true := by
  unfold specOf at h
  cases hidx : Value.mapIndex "spec" doc with
  | none => simp [hidx] at h
  | some v =>
    cases v with
    | map m =>
      simp [hidx] at h
      subst h
      have := Value.wellFormed_of_mapIndex hwf hidx
      rwa [Value.wellFormed] at this
    | null => simp [hidx] at h
    | bool b => simp [hidx] at h
    | int i => simp [hidx] at h
    | str s => simp [hidx] at h
    | slice xs => simp [hidx] at h

theorem deleteMutable_wellFormed {spec : Unstructured} (h : Value.wellFormedMap spec = true) :
    Value.wellFormedMap (deleteMutable spec) = true :=
  Value.wellFormedMap_delete _ (Value.wellFormedMap_delete _ (Value.wellFormedMap_delete _ h))

theorem mapIndex_deleteMutable {key : String} (hkey : key ∉ mutableKeys) (spec : Unstructured) :
    Value.mapIndex key (deleteMutable spec) = Value.mapIndex key spec := by
  simp only [mutableKeys, List.mem_cons, List.mem_singleton, not_or, List.not_mem_nil,
    or_false] at hkey
  simp [deleteMutable, Value.mapIndex_delete, hkey.1, hkey.2.1, hkey.2.2]

/-! ## Template update -/

/-- Claim C1, evaluated on the code: three updates that change only the machine
spec's `providerID`, only its `additionalLabels`, or only its
`additionalNetworkTags` are each rejected with the immutability error.  The
three `delete` statements act on the keys of the top-level `spec` document,
while the machine spec is nested at `spec.template.spec`. -/
theorem validateUpdate_rejects_mutable_field_change :
    GCPMachineTemplate.ValidateUpdate DefaultUnstructuredConverter
        (templateOf "worker" { storedSpec with ProviderID := some "gce://project/zone/worker-b" })
        (templateOf "worker" storedSpec)
      = Go.Result.returned (some (immutableError "worker"))
    ∧ GCPMachineTemplate.ValidateUpdate DefaultUnstructuredConverter
        (templateOf "worker" { storedSpec with AdditionalLabels := [("team", "platform")] })
        (templateOf "worker" storedSpec)
      = Go.Result.returned (some (immutableError "worker"))
    ∧ GCPMachineTemplate.ValidateUpdate DefaultUnstructuredConverter
        (templateOf "worker" { storedSpec with AdditionalNetworkTags := ["internal", "public"] })
        (templateOf "worker" storedSpec)
      = Go.Result.returned (some (immutableError "worker")) := by
  refine ⟨?_, ?_, ?_⟩ <;> decide

/-- Claim C2: when both objects convert, and the two spec documents differ in
the value of a key other than `providerID`, `additionalLabels` and
`additionalNetworkTags`, `ValidateUpdate` returns the Invalid status error whose
only cause is the Forbidden field error on path `spec` with detail
`cannot be modified`. -/
theorem validateUpdate_rejects_immutable_field_change
    (ToUnstructured : GCPMachineTemplate → Except String Unstructured)
    (r old : GCPMachineTemplate) (newDoc oldDoc newSpec oldSpec : Unstructured)
    (hnew : ToUnstructured r = .ok newDoc) (hold : ToUnstructured old = .ok oldDoc)
    (hnewSpec : specOf newDoc = some newSpec) (holdSpec : specOf oldDoc = some oldSpec)
    (hwf : Value.wellFormedMap oldDoc = true)
    (key : String) (hkey : key ∉ mutableKeys)
    (hdiff : sameField (Value.mapIndex key oldSpec) (Value.mapIndex key newSpec) = false) :
    r.ValidateUpdate ToUnstructured old
      = Go.Result.returned (some
          { Reason := apierrors.StatusReason.StatusReasonInvalid,
            Code := 422,
            Group := "infrastructure.cluster.x-k8s.io",
            Kind := "GCPMachineTemplate",
            Name := r.Name,
            Causes := [{ Type_ := field.ErrorType.ErrorTypeForbidden,
                         Field := "spec",
                         BadValue := some "",
                         Detail := "cannot be modified" }] }) := by
  have hne : reflect.DeepEqual (deleteMutable oldSpec) (deleteMutable newSpec) = false := by
    cases hde : reflect.DeepEqual (deleteMutable oldSpec) (deleteMutable newSpec) with
    | false => rfl
    | true =>
      exfalso
      have hoswf := specOf_wellFormed hwf holdSpec
      have hnd := ((Value.wellFormedMap_iff _).mp (deleteMutable_wellFormed hoswf)).1
      have hsame := reflect.deepEqual_sameField hnd hde key
      rw [mapIndex_deleteMutable hkey, mapIndex_deleteMutable hkey, hdiff] at hsame
      exact Bool.false_ne_true hsame
  simp [GCPMachineTemplate.ValidateUpdate, hnew, hold, hnewSpec, holdSpec, hne, immutableError,
    apierrors.NewInvalid, gcpMachineTemplateGroupKind, field.Forbidden, field.NewPath,
    field.Path.String]

/-- Witness of C2: an update that changes only `InstanceType`. -/
theorem validateUpdate_rejects_immutable_field_change_witness :
    GCPMachineTemplate.ValidateUpdate DefaultUnstructuredConverter
        (templateOf "worker" { storedSpec with InstanceType := "n2d-standard-8" })
        (templateOf "worker" storedSpec)
      = Go.Result.returned (some
          { Reason := apierrors.StatusReason.StatusReasonInvalid,
            Code := 422,
            Group := "infrastructure.cluster.x-k8s.io",
            Kind := "GCPMachineTemplate",
            Name := "worker",
            Causes := [{ Type_ := field.ErrorType.ErrorTypeForbidden,
                         Field := "spec",
                         BadValue := some "",
                         Detail := "cannot be modified" }] }) :=
  validateUpdate_rejects_immutable_field_change DefaultUnstructuredConverter
    (templateOf "worker" { storedSpec with InstanceType := "n2d-standard-8" })
    (templateOf "worker" storedSpec)
    (templateOf "worker" { storedSpec with InstanceType := "n2d-standard-8" }).toUnstructured
    (templateOf "worker" storedSpec).toUnstructured
    [("template", Value.map [("spec", Value.map
        ({ storedSpec with InstanceType := "n2d-standard-8" } : GCPMachineSpec).toUnstructured)])]
    [("template", Value.map [("spec", Value.map storedSpec.toUnstructured)])]
    rfl rfl rfl rfl (by decide) "template" (by decide) (by decide)

/-- Claim C3: when the new object converts to a well-formed document with a
`spec` map, `ValidateUpdate` returns no error if the old object is the new one,
and also if the old object converts and the two spec documents are equal once
the three mutable keys are removed from both. -/
theorem validateUpdate_accepts_unchanged
    (ToUnstructured : GCPMachineTemplate → Except String Unstructured)
    (r old : GCPMachineTemplate) (newDoc oldDoc newSpec oldSpec : Unstructured)
    (hnew : ToUnstructured r = .ok newDoc) (hold : ToUnstructured old = .ok oldDoc)
    (hnewSpec : specOf newDoc = some newSpec) (holdSpec : specOf oldDoc = some oldSpec)
    (hwf : Value.wellFormedMap newDoc = true)
    (hsame : old = r ∨ deleteMutable oldSpec = deleteMutable newSpec) :
    r.ValidateUpdate ToUnstructured old = Go.Result.returned none := by
  have heq : deleteMutable oldSpec = deleteMutable newSpec := by
    rcases hsame with h | h
    · subst h
      rw [hnew] at hold
      cases hold
      rw [hnewSpec] at holdSpec
      cases holdSpec
      rfl
    · exact h
  have hde : reflect.DeepEqual (deleteMutable oldSpec) (deleteMutable newSpec) = true := by
    rw [heq]
    exact reflect.deepEqual_refl _ (deleteMutable_wellFormed (specOf_wellFormed hwf hnewSpec))
  simp [GCPMachineTemplate.ValidateUpdate, hnew, hold, hnewSpec, holdSpec, hde]

/-- Witness of C3: a template updated to itself. -/
theorem validateUpdate_accepts_unchanged_witness :
    GCPMachineTemplate.ValidateUpdate DefaultUnstructuredConverter
        (templateOf "worker" storedSpec) (templateOf "worker" storedSpec)
      = Go.Result.returned none :=
  validateUpdate_accepts_unchanged DefaultUnstructuredConverter
    (templateOf "worker" storedSpec) (templateOf "worker" storedSpec)
    (templateOf "worker" storedSpec).toUnstructured
    (templateOf "worker" storedSpec).toUnstructured
    [("template", Value.map [("spec", Value.map storedSpec.toUnstructured)])]
    [("template", Value.map [("spec", Value.map storedSpec.toUnstructured)])]
    rfl rfl rfl rfl (by decide) (Or.inl rfl)

/-! ## The confidential-compute rule -/

/-- Claim C4: with `ConfidentialCompute` enabled and `OnHostMaintenance` absent
or `Migrate`, `ValidateCreate` returns an error, whatever the instance type and
the supported-series constant are. -/
theorem validateCreate_rejects_enabled_without_terminate
    (supported : String) (r : GCPMachineTemplate)
    (hcc : r.Spec.Template.Spec.ConfidentialCompute = some ConfidentialComputePolicy.Enabled)
    (hohm : r.Spec.Template.Spec.OnHostMaintenance = none
      ∨ r.Spec.Template.Spec.OnHostMaintenance = some HostMaintenancePolicy.Migrate) :
    r.ValidateCreate supported ≠ none := by
  unfold GCPMachineTemplate.ValidateCreate
  rw [Ne, validateConfidentialCompute_eq_none_iff]
  rintro (h | ⟨h, _⟩)
  · exact h hcc
  · rcases hohm with h2 | h2 <;> simp [h2] at h

/-- Witness of C4: the third and fourth specs of the test (`Migrate`, and
`OnHostMaintenance` absent), with a supported instance type. -/
theorem validateCreate_rejects_enabled_without_terminate_witness :
    (templateOf "worker"
        { InstanceType := "n2d-standard-4",
          OnHostMaintenance := some HostMaintenancePolicy.Migrate,
          ConfidentialCompute := some ConfidentialComputePolicy.Enabled }).ValidateCreate
        exampleSupportedConstant ≠ none
    ∧ (templateOf "worker"
        { InstanceType := "n2d-standard-4",
          ConfidentialCompute := some ConfidentialComputePolicy.Enabled }).ValidateCreate
        exampleSupportedConstant ≠ none :=
  ⟨validateCreate_rejects_enabled_without_terminate exampleSupportedConstant _ rfl (Or.inr rfl),
   validateCreate_rejects_enabled_without_terminate exampleSupportedConstant _ rfl (Or.inl rfl)⟩

/-- Claim C5: with `ConfidentialCompute` absent or `Disabled`, `ValidateCreate`
returns no error, whatever `OnHostMaintenance`, the instance type and the
supported-series constant are. -/
theorem validateCreate_accepts_without_confidentialCompute
    (supported : String) (r : GCPMachineTemplate)
    (hcc : r.Spec.Template.Spec.ConfidentialCompute = none
      ∨ r.Spec.Template.Spec.ConfidentialCompute = some ConfidentialComputePolicy.Disabled) :
    r.ValidateCreate supported = none := by
  unfold GCPMachineTemplate.ValidateCreate
  rw [validateConfidentialCompute_eq_none_iff]
  left
  rcases hcc with h | h <;> simp [h]

/-- Witness of C5: the first spec of the test, only `OnHostMaintenance` set to
`Terminate`. -/
theorem validateCreate_accepts_without_confidentialCompute_witness :
    (templateOf "worker"
        { OnHostMaintenance := some HostMaintenancePolicy.Terminate }).ValidateCreate
        exampleSupportedConstant = none :=
  validateCreate_accepts_without_confidentialCompute exampleSupportedConstant _ (Or.inl rfl)

/-- Counterexample to C6 as stated.  A spec with `OnHostMaintenance = Terminate`,
a supported series and no `ConfidentialCompute` violates the stated equivalence
and is accepted; and a spec with `ConfidentialCompute` enabled,
`OnHostMaintenance = Terminate` and the series `n2`, which is not a supported
series, satisfies neither side's membership condition and is accepted too. -/
theorem confidentialCompute_invariant_counterexample :
    ((templateOf "worker" terminateOnlySpec).validateConfidentialCompute
          exampleSupportedConstant = none
      ∧ ¬ (terminateOnlySpec.ConfidentialCompute = some ConfidentialComputePolicy.Enabled
            ↔ (terminateOnlySpec.OnHostMaintenance = some HostMaintenancePolicy.Terminate
                ∧ machineSeriesOf terminateOnlySpec.InstanceType ∈ exampleSupportedSeries)))
    ∧ ((templateOf "worker" enabledN2Spec).validateConfidentialCompute
          exampleSupportedConstant = none
      ∧ ¬ (enabledN2Spec.ConfidentialCompute = some ConfidentialComputePolicy.Enabled
            ↔ (enabledN2Spec.OnHostMaintenance = some HostMaintenancePolicy.Terminate
                ∧ machineSeriesOf enabledN2Spec.InstanceType ∈ exampleSupportedSeries))) := by
  decide

/-- Claim C6 as amended: the rule returns an error if and only if
`ConfidentialCompute` is enabled and it is not the case that
`OnHostMaintenance = Terminate` and the machine series is non-empty and occurs
as a substring of the supported-series constant. -/
theorem validateConfidentialCompute_error_iff (supported : String) (r : GCPMachineTemplate) :
    r.validateConfidentialCompute supported ≠ none ↔
      (r.Spec.Template.Spec.ConfidentialCompute = some ConfidentialComputePolicy.Enabled
        ∧ ¬ (r.Spec.Template.Spec.OnHostMaintenance = some HostMaintenancePolicy.Terminate
              ∧ machineSeriesOf r.Spec.Template.Spec.InstanceType ≠ ""
              ∧ (machineSeriesOf r.Spec.Template.Spec.InstanceType).data <:+: supported.data)) :=
  validateConfidentialCompute_ne_none_iff supported r

/-- Counterexample to C7 as stated: the second spec of the test has
`ConfidentialCompute` enabled and `OnHostMaintenance = Terminate`, its
`InstanceType` is empty, and `ValidateCreate` returns the machine-series error
for it, whatever the supported-series constant is. -/
theorem validateCreate_enabled_terminate_counterexample :
    testSpecEnabledTerminate.ConfidentialCompute = some ConfidentialComputePolicy.Enabled
    ∧ testSpecEnabledTerminate.OnHostMaintenance = some HostMaintenancePolicy.Terminate
    ∧ testSpecEnabledTerminate.InstanceType = ""
    ∧ (templateOf "worker" testSpecEnabledTerminate).ValidateCreate exampleSupportedConstant
        ≠ none
    ∧ ∀ supported,
        (templateOf "worker" testSpecEnabledTerminate).ValidateCreate supported
          = some (machineSeriesMessage supported) := by
  refine ⟨rfl, rfl, rfl, by decide, fun supported => ?_⟩
  simp [GCPMachineTemplate.ValidateCreate, GCPMachineTemplate.validateConfidentialCompute,
    templateOf, testSpecEnabledTerminate, show machineSeriesOf "" = "" from by decide]

/-- Claim C7 as amended: with `ConfidentialCompute` enabled and
`OnHostMaintenance = Terminate`, `ValidateCreate` returns no error exactly when
the machine series of `InstanceType` is non-empty and occurs as a substring of
the supported-series constant; for an empty `InstanceType` it returns the
machine-series error. -/
theorem validateCreate_enabled_terminate_iff
    (supported : String) (r : GCPMachineTemplate)
    (hcc : r.Spec.Template.Spec.ConfidentialCompute = some ConfidentialComputePolicy.Enabled)
    (hohm : r.Spec.Template.Spec.OnHostMaintenance = some HostMaintenancePolicy.Terminate) :
    (r.ValidateCreate supported = none ↔
        (machineSeriesOf r.Spec.Template.Spec.InstanceType ≠ ""
          ∧ (machineSeriesOf r.Spec.Template.Spec.InstanceType).data <:+: supported.data))
    ∧ (r.Spec.Template.Spec.InstanceType = "" →
        r.ValidateCreate supported = some (machineSeriesMessage supported)) := by
  unfold GCPMachineTemplate.ValidateCreate
  refine ⟨?_, fun hempty => ?_⟩
  · rw [validateConfidentialCompute_eq_none_iff, strings.contains_iff]
    constructor
    · rintro (h | ⟨_, h⟩)
      · exact absurd hcc h
      · exact h
    · exact fun h => Or.inr ⟨hohm, h⟩
  · have hno : ¬ (r.Spec.Template.Spec.OnHostMaintenance = none
        ∨ r.Spec.Template.Spec.OnHostMaintenance = some HostMaintenancePolicy.Migrate) := by
      rw [hohm]
      simp
    have hs : machineSeriesOf r.Spec.Template.Spec.InstanceType = ""
        ∨ ¬ strings.Contains supported
              (machineSeriesOf r.Spec.Template.Spec.InstanceType) = true := by
      left
      rw [hempty]
      decide
    unfold GCPMachineTemplate.validateConfidentialCompute
    rw [if_pos hcc, if_neg hno]
    simp only []
    rw [if_pos hs]

/-- Witness of C7 as amended: the test's spec completed with the instance type
`n2d-standard-4` is accepted, and the test's spec itself, with the instance type
left empty, gets the machine-series error. -/
theorem validateCreate_enabled_terminate_iff_witness :
    (templateOf "worker"
        { testSpecEnabledTerminate with InstanceType := "n2d-standard-4" }).ValidateCreate
        exampleSupportedConstant = none
    ∧ (templateOf "worker" testSpecEnabledTerminate).ValidateCreate exampleSupportedConstant
        = some (machineSeriesMessage exampleSupportedConstant) :=
  ⟨(validateCreate_enabled_terminate_iff exampleSupportedConstant
      (templateOf "worker" { testSpecEnabledTerminate with InstanceType := "n2d-standard-4" })
      rfl rfl).1.mpr ⟨by decide, by decide⟩,
   (validateCreate_enabled_terminate_iff exampleSupportedConstant
      (templateOf "worker" testSpecEnabledTerminate) rfl rfl).2 rfl⟩

/-- Counterexample to C8 as stated: the instance type `n2d` contains no `-`, its
extracted series is `n2d`, not the empty string, and with
`OnHostMaintenance = Terminate` the rule returns no error. -/
theorem series_without_separator_counterexample :
    '-' ∉ ("n2d" : String).data
    ∧ machineSeriesOf "n2d" = "n2d"
    ∧ machineSeriesOf "n2d" ≠ ""
    ∧ (templateOf "worker"
        { InstanceType := "n2d",
          OnHostMaintenance := some HostMaintenancePolicy.Terminate,
          ConfidentialCompute := some ConfidentialComputePolicy.Enabled
        }).validateConfidentialCompute exampleSupportedConstant = none := by
  decide

/-- Claim C8 as amended: when `InstanceType` contains no `-`, the extracted
machine series is the whole `InstanceType`; with `ConfidentialCompute` enabled
the rule then returns an error exactly when `OnHostMaintenance` is absent or
`Migrate`, or `InstanceType` is empty, or `InstanceType` does not occur as a
substring of the supported-series constant. -/
theorem series_without_separator (supported : String) (r : GCPMachineTemplate)
    (hcc : r.Spec.Template.Spec.ConfidentialCompute = some ConfidentialComputePolicy.Enabled)
    (hsep : '-' ∉ r.Spec.Template.Spec.InstanceType.data) :
    machineSeriesOf r.Spec.Template.Spec.InstanceType = r.Spec.Template.Spec.InstanceType
    ∧ (r.validateConfidentialCompute supported ≠ none ↔
        (r.Spec.Template.Spec.OnHostMaintenance = none
          ∨ r.Spec.Template.Spec.OnHostMaintenance = some HostMaintenancePolicy.Migrate
          ∨ r.Spec.Template.Spec.InstanceType = ""
          ∨ ¬ r.Spec.Template.Spec.InstanceType.data <:+: supported.data)) := by
  have hseries :
      machineSeriesOf r.Spec.Template.Spec.InstanceType = r.Spec.Template.Spec.InstanceType := by
    rw [String.ext_iff, machineSeriesOf_data, List.takeWhile_eq_self_iff]
    intro c hc
    have : c ≠ '-' := fun h => hsep (h ▸ hc)
    simpa using this
  refine ⟨hseries, ?_⟩
  rw [validateConfidentialCompute_ne_none_iff, hseries]
  have hterm := onHostMaintenance_terminate_iff r.Spec.Template.Spec.OnHostMaintenance
  constructor
  · rintro ⟨_, h⟩
    by_cases h1 : r.Spec.Template.Spec.OnHostMaintenance = none
    · exact Or.inl h1
    · by_cases h2 : r.Spec.Template.Spec.OnHostMaintenance = some HostMaintenancePolicy.Migrate
      · exact Or.inr (Or.inl h2)
      · have ht := hterm.mp (fun h3 => h3.elim h1 h2)
        by_cases h4 : r.Spec.Template.Spec.InstanceType = ""
        · exact Or.inr (Or.inr (Or.inl h4))
        · exact Or.inr (Or.inr (Or.inr (fun h5 => h ⟨ht, h4, h5⟩)))
  · intro h
    refine ⟨hcc, fun ⟨ht, hne, hin⟩ => ?_⟩
    rcases h with h | h | h | h
    · rw [h] at ht; cases ht
    · rw [h] at ht; cases ht
    · exact hne h
    · exact h hin

/-- Witness of C8 as amended: the instance type `n2d`, without separator. -/
theorem series_without_separator_witness :
    machineSeriesOf "n2d" = "n2d"
    ∧ ((templateOf "worker"
          { InstanceType := "n2d",
            OnHostMaintenance := some HostMaintenancePolicy.Terminate,
            ConfidentialCompute := some ConfidentialComputePolicy.Enabled
          }).validateConfidentialCompute exampleSupportedConstant ≠ none ↔
        ((some HostMaintenancePolicy.Terminate : Option HostMaintenancePolicy) = none
          ∨ some HostMaintenancePolicy.Terminate = some HostMaintenancePolicy.Migrate
          ∨ ("n2d" : String) = ""
          ∨ ¬ ("n2d" : String).data <:+: exampleSupportedConstant.data)) :=
  series_without_separator exampleSupportedConstant
    (templateOf "worker"
      { InstanceType := "n2d",
        OnHostMaintenance := some HostMaintenancePolicy.Terminate,
        ConfidentialCompute := some ConfidentialComputePolicy.Enabled })
    rfl (by decide)

/-- Claim C9: with `ConfidentialCompute` enabled and `OnHostMaintenance =
Terminate`, the rule returns no error exactly when the part of `InstanceType`
before its first `-` is non-empty and occurs as a substring of the
supported-series constant.  So, when the constant is a list of non-empty series
names joined by a delimiter, every spec whose series is one of the names
passes. -/
theorem validateConfidentialCompute_accepts_iff
    (supported : String) (r : GCPMachineTemplate)
    (hcc : r.Spec.Template.Spec.ConfidentialCompute = some ConfidentialComputePolicy.Enabled)
    (hohm : r.Spec.Template.Spec.OnHostMaintenance = some HostMaintenancePolicy.Terminate) :
    (r.validateConfidentialCompute supported = none ↔
        (r.Spec.Template.Spec.InstanceType.data.takeWhile (fun c => c != '-') ≠ []
          ∧ r.Spec.Template.Spec.InstanceType.data.takeWhile (fun c => c != '-')
              <:+: supported.data))
    ∧ (∀ (names : List String) (sep : String),
        supported = strings.Join names sep → "" ∉ names →
        machineSeriesOf r.Spec.Template.Spec.InstanceType ∈ names →
        r.validateConfidentialCompute supported = none) := by
  have hiff : r.validateConfidentialCompute supported = none ↔
      (machineSeriesOf r.Spec.Template.Spec.InstanceType ≠ ""
        ∧ (machineSeriesOf r.Spec.Template.Spec.InstanceType).data <:+: supported.data) := by
    rw [validateConfidentialCompute_eq_none_iff, strings.contains_iff]
    constructor
    · rintro (h | ⟨_, h⟩)
      · exact absurd hcc h
      · exact h
    · exact fun h => Or.inr ⟨hohm, h⟩
  refine ⟨?_, ?_⟩
  · rw [hiff, Ne, string_eq_empty_iff, machineSeriesOf_data]
  · intro names sep hs hne hmem
    rw [hiff, hs]
    exact ⟨fun h => hne (h ▸ hmem), strings.join_data_infix sep names _ hmem⟩

/-- Witness of C9: the instance type `n2d-standard-4` of the supported series
`n2d`. -/
theorem validateConfidentialCompute_accepts_iff_witness :
    machineSeriesOf "n2d-standard-4" ∈ exampleSupportedSeries
    ∧ (templateOf "worker"
        { InstanceType := "n2d-standard-4",
          OnHostMaintenance := some HostMaintenancePolicy.Terminate,
          ConfidentialCompute := some ConfidentialComputePolicy.Enabled
        }).validateConfidentialCompute exampleSupportedConstant = none :=
  ⟨by decide,
   (validateConfidentialCompute_accepts_iff exampleSupportedConstant
      (templateOf "worker"
        { InstanceType := "n2d-standard-4",
          OnHostMaintenance := some HostMaintenancePolicy.Terminate,
          ConfidentialCompute := some ConfidentialComputePolicy.Enabled })
      rfl rfl).2 exampleSupportedSeries "," rfl (by decide) (by decide)⟩

/-- Counterexample to C10 as stated: with the supported series `n2d` and `c2d`,
the instance type `n2-standard-4` has the series `n2`, which is not a member of
the supported set; with `ConfidentialCompute` enabled and
`OnHostMaintenance = Terminate` the rule returns no error. -/
theorem unsupported_series_counterexample :
    enabledN2Spec.ConfidentialCompute = some ConfidentialComputePolicy.Enabled
    ∧ enabledN2Spec.OnHostMaintenance = some HostMaintenancePolicy.Terminate
    ∧ machineSeriesOf enabledN2Spec.InstanceType = "n2"
    ∧ machineSeriesOf enabledN2Spec.InstanceType ∉ exampleSupportedSeries
    ∧ (templateOf "worker" enabledN2Spec).validateConfidentialCompute
        exampleSupportedConstant = none := by
  decide

/-- Claim C10 as amended: with `ConfidentialCompute` enabled and
`OnHostMaintenance = Terminate`, the rule returns the machine-series error for
every `InstanceType` whose series is empty or does not occur as a substring of
the supported-series constant; this includes an empty `InstanceType` and one
that starts with `-`. -/
theorem validateConfidentialCompute_rejects_series
    (supported : String) (r : GCPMachineTemplate)
    (hcc : r.Spec.Template.Spec.ConfidentialCompute = some ConfidentialComputePolicy.Enabled)
    (hohm : r.Spec.Template.Spec.OnHostMaintenance = some HostMaintenancePolicy.Terminate) :
    ((machineSeriesOf r.Spec.Template.Spec.InstanceType = ""
        ∨ ¬ (machineSeriesOf r.Spec.Template.Spec.InstanceType).data <:+: supported.data) →
      r.validateConfidentialCompute supported = some (machineSeriesMessage supported))
    ∧ (r.Spec.Template.Spec.InstanceType = "" →
      r.validateConfidentialCompute supported = some (machineSeriesMessage supported))
    ∧ (r.Spec.Template.Spec.InstanceType.data.head? = some '-' →
      r.validateConfidentialCompute supported = some (machineSeriesMessage supported)) := by
  have hmain : (machineSeriesOf r.Spec.Template.Spec.InstanceType = ""
        ∨ ¬ (machineSeriesOf r.Spec.Template.Spec.InstanceType).data <:+: supported.data) →
      r.validateConfidentialCompute supported = some (machineSeriesMessage supported) := by
    intro h
    have h2 : machineSeriesOf r.Spec.Template.Spec.InstanceType = ""
        ∨ ¬ strings.Contains supported
              (machineSeriesOf r.Spec.Template.Spec.InstanceType) = true := by
      rw [strings.contains_iff]
      exact h
    have hno : ¬ (r.Spec.Template.Spec.OnHostMaintenance = none
        ∨ r.Spec.Template.Spec.OnHostMaintenance = some HostMaintenancePolicy.Migrate) := by
      rw [hohm]
      simp
    unfold GCPMachineTemplate.validateConfidentialCompute
    rw [if_pos hcc, if_neg hno]
    simp only []
    rw [if_pos h2]
  refine ⟨hmain, fun h => hmain (Or.inl ?_), fun h => hmain (Or.inl ?_)⟩
  · rw [h]
    decide
  · rw [string_eq_empty_iff, machineSeriesOf_data]
    cases hd : r.Spec.Template.Spec.InstanceType.data with
    | nil => rfl
    | cons c cs =>
      rw [hd] at h
      simp only [List.head?_cons, Option.some.injEq] at h
      subst h
      simp [List.takeWhile]

/-- Witness of C10 as amended: the series `e2` does not occur in the constant
`n2d,c2d`, and neither an empty instance type nor one starting with `-` is
accepted. -/
theorem validateConfidentialCompute_rejects_series_witness :
    (templateOf "worker"
        { InstanceType := "e2-standard-4",
          OnHostMaintenance := some HostMaintenancePolicy.Terminate,
          ConfidentialCompute := some ConfidentialComputePolicy.Enabled
        }).validateConfidentialCompute exampleSupportedConstant
      = some (machineSeriesMessage exampleSupportedConstant) :=
  (validateConfidentialCompute_rejects_series exampleSupportedConstant
      (templateOf "worker"
        { InstanceType := "e2-standard-4",
          OnHostMaintenance := some HostMaintenancePolicy.Terminate,
          ConfidentialCompute := some ConfidentialComputePolicy.Enabled })
      rfl rfl).1 (Or.inr (by decide))

/-! ## Symmetry of `reflect.DeepEqual` -/

mutual
theorem reflect.deepValueEqual_symm :
    ∀ (v w : Value), Value.wellFormed v = true → Value.wellFormed w = true →
      reflect.deepValueEqual v w = true → reflect.deepValueEqual w v = true
  | .null, w, _, _, h => by
    cases w <;> simp_all [reflect.deepValueEqual]
  | .bool a, w, _, _, h => by
    cases w <;> simp_all [reflect.deepValueEqual]
  | .int a, w, _, _, h => by
    cases w <;> simp_all [reflect.deepValueEqual]
  | .str a, w, _, _, h => by
    cases w <;> simp_all [reflect.deepValueEqual]
  | .slice xs, w, hv, hw, h => by
    cases w with
    | slice ys =>
      rw [reflect.deepValueEqual] at h ⊢
      rw [Value.wellFormed] at hv hw
      exact reflect.deepSliceEqual_symm xs ys hv hw h
    | null => simp [reflect.deepValueEqual] at h
    | bool b => simp [reflect.deepValueEqual] at h
    | int i => simp [reflect.deepValueEqual] at h
    | str s => simp [reflect.deepValueEqual] at h
    | map m => simp [reflect.deepValueEqual] at h
  | .map m1, w, hv, hw, h => by
    cases w with
    | map m2 =>
      rw [Value.wellFormed] at hv hw
      have hentries := reflect.deepMapEntries_symm m1 hv
      have h12 : reflect.DeepEqual m1 m2 = true := h
      show reflect.DeepEqual m2 m1 = true
      obtain ⟨hlen, _⟩ := (reflect.deepEqual_iff m1 m2).mp h12
      have hnd1 := ((Value.wellFormedMap_iff m1).mp hv).1
      have hwf2 := (Value.wellFormedMap_iff m2).mp hw
      rw [reflect.deepEqual_iff]
      refine ⟨hlen.symm, fun k w' hmem => ?_⟩
      have hsame := reflect.deepEqual_sameField hnd1 h12 k
      rw [Value.mapIndex_of_mem hwf2.1 hmem] at hsame
      cases hidx : Value.mapIndex k m1 with
      | none => simp [hidx, sameField] at hsame
      | some v =>
        rw [hidx] at hsame
        exact ⟨v, rfl, hentries k v w' (Value.mapIndex_mem hidx) (hwf2.2 k w' hmem) hsame⟩
    | null => simp [reflect.deepValueEqual] at h
    | bool b => simp [reflect.deepValueEqual] at h
    | int i => simp [reflect.deepValueEqual] at h
    | str s => simp [reflect.deepValueEqual] at h
    | slice xs => simp [reflect.deepValueEqual] at h
theorem reflect.deepSliceEqual_symm :
    ∀ (xs ys : List Value), Value.wellFormedSlice xs = true → Value.wellFormedSlice ys = true →
      reflect.deepSliceEqual xs ys = true → reflect.deepSliceEqual ys xs = true
  | [], ys, _, _, h => by
    cases ys <;> simp_all [reflect.deepSliceEqual]
  | x :: xs, ys, hx, hy, h => by
    cases ys with
    | nil => simp [reflect.deepSliceEqual] at h
    | cons y ys =>
      rw [Value.wellFormedSlice, Bool.and_eq_true] at hx hy
      rw [reflect.deepSliceEqual, Bool.and_eq_true] at h ⊢
      exact ⟨reflect.deepValueEqual_symm x y hx.1 hy.1 h.1,
        reflect.deepSliceEqual_symm xs ys hx.2 hy.2 h.2⟩
theorem reflect.deepMapEntries_symm :
    ∀ (m : List (String × Value)), Value.wellFormedMap m = true →
      ∀ (k : String) (v w : Value), (k, v) ∈ m → Value.wellFormed w = true →
        reflect.deepValueEqual v w = true → reflect.deepValueEqual w v = true
  | [], _, _, _, _, hmem, _, _ => by simp at hmem
  | (k0, v0) :: rest, hm, k, v, w, hmem, hw, h => by
    rw [Value.wellFormedMap, Bool.and_eq_true, Bool.and_eq_true] at hm
    rcases List.mem_cons.mp hmem with heq | hrest
    · obtain ⟨_, rfl⟩ := Prod.mk.inj heq
      exact reflect.deepValueEqual_symm v w hm.1.2 hw h
    · exact reflect.deepMapEntries_symm rest hm.2 k v w hrest hw h
end

theorem reflect.deepEqual_symm (m1 m2 : Unstructured)
    (h1 : Value.wellFormedMap m1 = true) (h2 : Value.wellFormedMap m2 = true) :
    reflect.DeepEqual m1 m2 = reflect.DeepEqual m2 m1 := by
  have hw1 : Value.wellFormed (.map m1) = true := by rw [Value.wellFormed]; exact h1
  have hw2 : Value.wellFormed (.map m2) = true := by rw [Value.wellFormed]; exact h2
  apply Bool.eq_iff_iff.mpr
  exact ⟨reflect.deepValueEqual_symm _ _ hw1 hw2, reflect.deepValueEqual_symm _ _ hw2 hw1⟩

/-! ## Facts about the returned errors -/

theorem conversionError_new (name err : String) :
    conversionError name "new" err
      = { Reason := apierrors.StatusReason.StatusReasonInvalid,
          Code := 422,
          Group := "infrastructure.cluster.x-k8s.io",
          Kind := "GCPMachineTemplate",
          Name := name,
          Causes := [{ Type_ := field.ErrorType.ErrorTypeInternal,
                       Field := "<nil>",
                       BadValue := none,
                       Detail := "failed to convert new GCPMachineTemplate to unstructured object: "
                                  ++ err }] } := by
  simp only [conversionError, apierrors.NewInvalid, gcpMachineTemplateGroupKind,
    field.InternalError, field.Path.String, errors.Wrap]
  rfl

theorem conversionError_old (name err : String) :
    conversionError name "old" err
      = { Reason := apierrors.StatusReason.StatusReasonInvalid,
          Code := 422,
          Group := "infrastructure.cluster.x-k8s.io",
          Kind := "GCPMachineTemplate",
          Name := name,
          Causes := [{ Type_ := field.ErrorType.ErrorTypeInternal,
                       Field := "<nil>",
                       BadValue := none,
                       Detail := "failed to convert old GCPMachineTemplate to unstructured object: "
                                  ++ err }] } := by
  simp only [conversionError, apierrors.NewInvalid, gcpMachineTemplateGroupKind,
    field.InternalError, field.Path.String, errors.Wrap]
  rfl

theorem conversionError_ne_immutableError (name which err : String) :
    conversionError name which err ≠ immutableError name := by
  intro h
  simp [conversionError, immutableError, apierrors.NewInvalid, field.InternalError,
    field.Forbidden] at h

theorem onHostMaintenanceMessage_ne_machineSeriesMessage (supported : String) :
    onHostMaintenanceMessage ≠ machineSeriesMessage supported := by
  intro h
  have hd := congrArg (fun s => s.data.take 29) h
  simp only [machineSeriesMessage, String.data_append] at hd
  rw [List.take_append_of_le_length (by decide)] at hd
  revert hd
  decide

/-! ## Conversion failures, messages and the remaining hooks -/

/-- Claim C11: when the conversion of the new template fails, `ValidateUpdate`
returns the Invalid status error whose only cause is an Internal field error
about the new object, whatever the old object is; when the new template converts
and the old object does not, the only cause is an Internal field error about the
old object.  In both cases the update is not accepted and the error is not the
Forbidden error on `spec`. -/
theorem validateUpdate_conversion_failure
    (ToUnstructured : GCPMachineTemplate → Except String Unstructured)
    (r old : GCPMachineTemplate) :
    (∀ err, ToUnstructured r = .error err →
      r.ValidateUpdate ToUnstructured old
        = Go.Result.returned (some
            { Reason := apierrors.StatusReason.StatusReasonInvalid,
              Code := 422,
              Group := "infrastructure.cluster.x-k8s.io",
              Kind := "GCPMachineTemplate",
              Name := r.Name,
              Causes := [{ Type_ := field.ErrorType.ErrorTypeInternal,
                           Field := "<nil>",
                           BadValue := none,
                           Detail :=
                             "failed to convert new GCPMachineTemplate to unstructured object: "
                               ++ err }] }))
    ∧ (∀ doc err, ToUnstructured r = .ok doc → ToUnstructured old = .error err →
      r.ValidateUpdate ToUnstructured old
        = Go.Result.returned (some
            { Reason := apierrors.StatusReason.StatusReasonInvalid,
              Code := 422,
              Group := "infrastructure.cluster.x-k8s.io",
              Kind := "GCPMachineTemplate",
              Name := r.Name,
              Causes := [{ Type_ := field.ErrorType.ErrorTypeInternal,
                           Field := "<nil>",
                           BadValue := none,
                           Detail :=
                             "failed to convert old GCPMachineTemplate to unstructured object: "
                               ++ err }] }))
    ∧ (((∃ err, ToUnstructured r = .error err) ∨ (∃ err, ToUnstructured old = .error err)) →
      r.ValidateUpdate ToUnstructured old ≠ Go.Result.returned none
      ∧ r.ValidateUpdate ToUnstructured old ≠ Go.Result.returned (some (immutableError r.Name))
      ∧ r.ValidateUpdate ToUnstructured old ≠ Go.Result.panicked) := by
  have hnewErr : ∀ err, ToUnstructured r = .error err →
      r.ValidateUpdate ToUnstructured old
        = Go.Result.returned (some (conversionError r.Name "new" err)) := by
    intro err h
    simp [GCPMachineTemplate.ValidateUpdate, h]
  have holdErr : ∀ doc err, ToUnstructured r = .ok doc → ToUnstructured old = .error err →
      r.ValidateUpdate ToUnstructured old
        = Go.Result.returned (some (conversionError r.Name "old" err)) := by
    intro doc err h1 h2
    simp [GCPMachineTemplate.ValidateUpdate, h1, h2]
  refine ⟨fun err h => ?_, fun doc err h1 h2 => ?_, fun h => ?_⟩
  · rw [hnewErr err h, conversionError_new]
  · rw [holdErr doc err h1 h2, conversionError_old]
  · have hres : ∃ which err, r.ValidateUpdate ToUnstructured old
        = Go.Result.returned (some (conversionError r.Name which err)) := by
      rcases h with ⟨err, h⟩ | ⟨err, h⟩
      · exact ⟨"new", err, hnewErr err h⟩
      · cases hr : ToUnstructured r with
        | error e => exact ⟨"new", e, hnewErr e hr⟩
        | ok doc => exact ⟨"old", err, holdErr doc err hr h⟩
    obtain ⟨which, err, hres⟩ := hres
    rw [hres]
    refine ⟨by simp, ?_, by simp⟩
    intro heq
    injection heq with heq
    injection heq with heq
    exact conversionError_ne_immutableError _ _ _ heq

/-- Witness of C11: with a converter that fails on the object named `broken`, an
update whose new and old objects both fail to convert reports the new object,
and an update whose old object alone fails reports the old object. -/
theorem validateUpdate_conversion_failure_witness :
    GCPMachineTemplate.ValidateUpdate (converterFailingOn ["broken"])
        (templateOf "broken" storedSpec) (templateOf "broken" storedSpec)
      = Go.Result.returned (some
          { Reason := apierrors.StatusReason.StatusReasonInvalid,
            Code := 422,
            Group := "infrastructure.cluster.x-k8s.io",
            Kind := "GCPMachineTemplate",
            Name := "broken",
            Causes := [{ Type_ := field.ErrorType.ErrorTypeInternal,
                         Field := "<nil>",
                         BadValue := none,
                         Detail :=
                           "failed to convert new GCPMachineTemplate to unstructured object: "
                             ++ "unsupported type" }] })
    ∧ GCPMachineTemplate.ValidateUpdate (converterFailingOn ["broken"])
        (templateOf "worker" storedSpec) (templateOf "broken" storedSpec)
      = Go.Result.returned (some
          { Reason := apierrors.StatusReason.StatusReasonInvalid,
            Code := 422,
            Group := "infrastructure.cluster.x-k8s.io",
            Kind := "GCPMachineTemplate",
            Name := "worker",
            Causes := [{ Type_ := field.ErrorType.ErrorTypeInternal,
                         Field := "<nil>",
                         BadValue := none,
                         Detail :=
                           "failed to convert old GCPMachineTemplate to unstructured object: "
                             ++ "unsupported type" }] }) :=
  ⟨(validateUpdate_conversion_failure (converterFailingOn ["broken"])
      (templateOf "broken" storedSpec) (templateOf "broken" storedSpec)).1
      "unsupported type" rfl,
   (validateUpdate_conversion_failure (converterFailingOn ["broken"])
      (templateOf "worker" storedSpec) (templateOf "broken" storedSpec)).2.1
      (templateOf "worker" storedSpec).toUnstructured "unsupported type" rfl rfl⟩

/-- Claim C12: when `ConfidentialCompute` is enabled and `OnHostMaintenance` is
absent or `Migrate`, the rule returns one and the same message, which names the
required value `Terminate` and, as the current value, `Migrate`: the explicit
value in one case and the implied default in the other. -/
theorem validateConfidentialCompute_onHostMaintenance_message
    (supported : String) (r : GCPMachineTemplate)
    (hcc : r.Spec.Template.Spec.ConfidentialCompute = some ConfidentialComputePolicy.Enabled)
    (hohm : r.Spec.Template.Spec.OnHostMaintenance = none
      ∨ r.Spec.Template.Spec.OnHostMaintenance = some HostMaintenancePolicy.Migrate) :
    r.validateConfidentialCompute supported
      = some ("ConfidentialCompute require OnHostMaintenance to be set to Terminate, "
              ++ "the current value is: Migrate")
    ∧ HostMaintenancePolicy.Terminate.toString.data
        <:+: ("ConfidentialCompute require OnHostMaintenance to be set to Terminate, "
              ++ "the current value is: Migrate" : String).data
    ∧ HostMaintenancePolicy.Migrate.toString.data
        <:+: ("ConfidentialCompute require OnHostMaintenance to be set to Terminate, "
              ++ "the current value is: Migrate" : String).data := by
  refine ⟨?_, ?_, ?_⟩
  · unfold GCPMachineTemplate.validateConfidentialCompute
    rw [if_pos hcc, if_pos hohm]
    rfl
  · exact ⟨("ConfidentialCompute require OnHostMaintenance to be set to " : String).data,
      (", the current value is: Migrate" : String).data, rfl⟩
  · exact ⟨("ConfidentialCompute require OnHostMaintenance to be set to Terminate, "
        ++ "the current value is: " : String).data, [], rfl⟩

/-- Witness of C12: the third and fourth specs of the test (`Migrate`, and
`OnHostMaintenance` absent) get the same message. -/
theorem validateConfidentialCompute_onHostMaintenance_message_witness :
    (templateOf "worker" enabledMigrateSpec).validateConfidentialCompute exampleSupportedConstant
      = some ("ConfidentialCompute require OnHostMaintenance to be set to Terminate, "
              ++ "the current value is: Migrate")
    ∧ (templateOf "worker"
        { ConfidentialCompute := some ConfidentialComputePolicy.Enabled }).validateConfidentialCompute
        exampleSupportedConstant
      = some ("ConfidentialCompute require OnHostMaintenance to be set to Terminate, "
              ++ "the current value is: Migrate") :=
  ⟨(validateConfidentialCompute_onHostMaintenance_message exampleSupportedConstant
      (templateOf "worker" enabledMigrateSpec) rfl (Or.inr rfl)).1,
   (validateConfidentialCompute_onHostMaintenance_message exampleSupportedConstant
      (templateOf "worker" { ConfidentialCompute := some ConfidentialComputePolicy.Enabled })
      rfl (Or.inl rfl)).1⟩

/-- Claim C13: `ValidateDelete` returns no error for every template; in
particular for a template that `ValidateCreate` rejects for every value of the
supported-series constant. -/
theorem validateDelete_accepts (r : GCPMachineTemplate) :
    r.ValidateDelete = none
    ∧ (templateOf "worker" enabledMigrateSpec).ValidateDelete = none
    ∧ ∀ supported, (templateOf "worker" enabledMigrateSpec).ValidateCreate supported ≠ none := by
  refine ⟨rfl, rfl, fun supported => ?_⟩
  simp [GCPMachineTemplate.ValidateCreate, GCPMachineTemplate.validateConfidentialCompute,
    templateOf, enabledMigrateSpec]

/-- Claim C14: `Default` leaves the template as it is: the object after the call
is the object before it, field by field. -/
theorem default_noop (r : GCPMachineTemplate) :
    r.Default = r
    ∧ r.Default.Name = r.Name
    ∧ r.Default.Spec = r.Spec
    ∧ r.Default.Spec.Template.Spec = r.Spec.Template.Spec :=
  ⟨rfl, rfl, rfl, rfl⟩

/-- Claim C15: substring matching yields false positives.  Whenever the
supported-series constant is a list of series names joined by a delimiter, a spec
with `ConfidentialCompute` enabled and `OnHostMaintenance = Terminate` passes as
soon as its non-empty series occurs inside one of the names; and with the names
`n2d` and `c2d` the instance type `n2-standard-4` is such a spec, whose series
`n2` is a proper substring of `n2d` and is not one of the names. -/
theorem validateConfidentialCompute_substring_false_positive :
    (∀ (names : List String) (sep : String) (r : GCPMachineTemplate) (name : String),
      r.Spec.Template.Spec.ConfidentialCompute = some ConfidentialComputePolicy.Enabled →
      r.Spec.Template.Spec.OnHostMaintenance = some HostMaintenancePolicy.Terminate →
      name ∈ names →
      machineSeriesOf r.Spec.Template.Spec.InstanceType ≠ "" →
      (machineSeriesOf r.Spec.Template.Spec.InstanceType).data <:+: name.data →
      r.validateConfidentialCompute (strings.Join names sep) = none)
    ∧ (machineSeriesOf enabledN2Spec.InstanceType ≠ ""
        ∧ machineSeriesOf enabledN2Spec.InstanceType ∉ exampleSupportedSeries
        ∧ (machineSeriesOf enabledN2Spec.InstanceType).data <:+: ("n2d" : String).data
        ∧ machineSeriesOf enabledN2Spec.InstanceType ≠ "n2d"
        ∧ (templateOf "worker" enabledN2Spec).validateConfidentialCompute
            (strings.Join exampleSupportedSeries ",") = none) := by
  refine ⟨fun names sep r name hcc hohm hmem hne hsub => ?_, by decide⟩
  rw [validateConfidentialCompute_eq_none_iff, strings.contains_iff]
  exact Or.inr ⟨hohm, hne, hsub.trans (strings.join_data_infix sep names name hmem)⟩

/-- Witness of C15: the series `n2` inside the name `n2d`, for the names `n2d`
and `c2d` joined by a comma followed by a blank. -/
theorem validateConfidentialCompute_substring_false_positive_witness :
    (templateOf "worker" enabledN2Spec).validateConfidentialCompute
      (strings.Join ["n2d", "c2d"] ", ") = none :=
  validateConfidentialCompute_substring_false_positive.1 ["n2d", "c2d"] ", "
    (templateOf "worker" enabledN2Spec) "n2d" rfl rfl (by decide) (by decide) (by decide)

/-- Claim C16: with `ConfidentialCompute` enabled and `OnHostMaintenance` absent
or `Migrate`, the rule returns the `OnHostMaintenance` error whatever the series
is, and that error is not the machine-series error; the machine-series error is
returned only when `ConfidentialCompute` is enabled and
`OnHostMaintenance = Terminate`. -/
theorem validateConfidentialCompute_onHostMaintenance_first
    (supported : String) (r : GCPMachineTemplate) :
    (r.Spec.Template.Spec.ConfidentialCompute = some ConfidentialComputePolicy.Enabled →
      (r.Spec.Template.Spec.OnHostMaintenance = none
        ∨ r.Spec.Template.Spec.OnHostMaintenance = some HostMaintenancePolicy.Migrate) →
      r.validateConfidentialCompute supported = some onHostMaintenanceMessage
      ∧ r.validateConfidentialCompute supported ≠ some (machineSeriesMessage supported))
    ∧ (r.validateConfidentialCompute supported = some (machineSeriesMessage supported) →
      r.Spec.Template.Spec.ConfidentialCompute = some ConfidentialComputePolicy.Enabled
      ∧ r.Spec.Template.Spec.OnHostMaintenance = some HostMaintenancePolicy.Terminate
      ∧ (machineSeriesOf r.Spec.Template.Spec.InstanceType = ""
          ∨ ¬ (machineSeriesOf r.Spec.Template.Spec.InstanceType).data <:+: supported.data)) := by
  have hfirst : r.Spec.Template.Spec.ConfidentialCompute
        = some ConfidentialComputePolicy.Enabled →
      (r.Spec.Template.Spec.OnHostMaintenance = none
        ∨ r.Spec.Template.Spec.OnHostMaintenance = some HostMaintenancePolicy.Migrate) →
      r.validateConfidentialCompute supported = some onHostMaintenanceMessage := by
    intro hcc hohm
    unfold GCPMachineTemplate.validateConfidentialCompute
    rw [if_pos hcc, if_pos hohm]
  refine ⟨fun hcc hohm => ⟨hfirst hcc hohm, ?_⟩, fun hres => ?_⟩
  · rw [hfirst hcc hohm]
    intro h
    exact onHostMaintenanceMessage_ne_machineSeriesMessage supported (Option.some.inj h)
  · have hnn : r.validateConfidentialCompute supported ≠ none := by
      rw [hres]
      simp
    have hcc := ((validateConfidentialCompute_ne_none_iff supported r).mp hnn).1
    have hnot := ((validateConfidentialCompute_ne_none_iff supported r).mp hnn).2
    by_cases hohm : r.Spec.Template.Spec.OnHostMaintenance = none
        ∨ r.Spec.Template.Spec.OnHostMaintenance = some HostMaintenancePolicy.Migrate
    · rw [hfirst hcc hohm] at hres
      exact absurd (Option.some.inj hres)
        (onHostMaintenanceMessage_ne_machineSeriesMessage supported)
    · have ht := (onHostMaintenance_terminate_iff _).mp hohm
      refine ⟨hcc, ht, ?_⟩
      by_cases hs : machineSeriesOf r.Spec.Template.Spec.InstanceType = ""
      · exact Or.inl hs
      · exact Or.inr (fun hin => hnot ⟨ht, hs, hin⟩)

/-- Witness of C16: a spec that violates both conditions (`Migrate`, and the
unsupported series `e2`) gets the `OnHostMaintenance` error. -/
theorem validateConfidentialCompute_onHostMaintenance_first_witness :
    (templateOf "worker"
        { InstanceType := "e2-standard-4",
          OnHostMaintenance := some HostMaintenancePolicy.Migrate,
          ConfidentialCompute := some ConfidentialComputePolicy.Enabled
        }).validateConfidentialCompute exampleSupportedConstant = some onHostMaintenanceMessage
    ∧ (templateOf "worker"
        { InstanceType := "e2-standard-4",
          OnHostMaintenance := some HostMaintenancePolicy.Migrate,
          ConfidentialCompute := some ConfidentialComputePolicy.Enabled
        }).validateConfidentialCompute exampleSupportedConstant
      ≠ some (machineSeriesMessage exampleSupportedConstant) :=
  (validateConfidentialCompute_onHostMaintenance_first exampleSupportedConstant
    (templateOf "worker"
      { InstanceType := "e2-standard-4",
        OnHostMaintenance := some HostMaintenancePolicy.Migrate,
        ConfidentialCompute := some ConfidentialComputePolicy.Enabled })).1 rfl (Or.inr rfl)

/-- Claim C17: for two templates that convert to well-formed documents with a
`spec` map, `ValidateUpdate` accepts the update from `b` to `a` if and only if it
accepts the update from `a` to `b`; when the two templates have the same name
the two calls return the same result. -/
theorem validateUpdate_symmetric
    (ToUnstructured : GCPMachineTemplate → Except String Unstructured)
    (a b : GCPMachineTemplate) (docA docB specA specB : Unstructured)
    (ha : ToUnstructured a = .ok docA) (hb : ToUnstructured b = .ok docB)
    (hspecA : specOf docA = some specA) (hspecB : specOf docB = some specB)
    (hwfA : Value.wellFormedMap docA = true) (hwfB : Value.wellFormedMap docB = true) :
    (a.ValidateUpdate ToUnstructured b = Go.Result.returned none
      ↔ b.ValidateUpdate ToUnstructured a = Go.Result.returned none)
    ∧ (a.Name = b.Name →
      a.ValidateUpdate ToUnstructured b = b.ValidateUpdate ToUnstructured a) := by
  have hsym : reflect.DeepEqual (deleteMutable specB) (deleteMutable specA)
      = reflect.DeepEqual (deleteMutable specA) (deleteMutable specB) :=
    reflect.deepEqual_symm _ _
      (deleteMutable_wellFormed (specOf_wellFormed hwfB hspecB))
      (deleteMutable_wellFormed (specOf_wellFormed hwfA hspecA))
  have hab : a.ValidateUpdate ToUnstructured b
      = if ! reflect.DeepEqual (deleteMutable specA) (deleteMutable specB) then
          Go.Result.returned (some (immutableError a.Name))
        else Go.Result.returned none := by
    simp only [GCPMachineTemplate.ValidateUpdate, ha, hb, hspecA, hspecB, hsym]
  have hba : b.ValidateUpdate ToUnstructured a
      = if ! reflect.DeepEqual (deleteMutable specA) (deleteMutable specB) then
          Go.Result.returned (some (immutableError b.Name))
        else Go.Result.returned none := by
    simp only [GCPMachineTemplate.ValidateUpdate, ha, hb, hspecA, hspecB]
  rw [hab, hba]
  cases reflect.DeepEqual (deleteMutable specA) (deleteMutable specB)
  · refine ⟨by simp, fun hname => ?_⟩
    rw [hname]
  · simp

/-- Witness of C17: a template and its copy with another instance type; the
update is rejected in both directions, with the same error. -/
theorem validateUpdate_symmetric_witness :
    GCPMachineTemplate.ValidateUpdate DefaultUnstructuredConverter
        (templateOf "worker" { storedSpec with InstanceType := "n2d-standard-8" })
        (templateOf "worker" storedSpec)
      = GCPMachineTemplate.ValidateUpdate DefaultUnstructuredConverter
        (templateOf "worker" storedSpec)
        (templateOf "worker" { storedSpec with InstanceType := "n2d-standard-8" }) :=
  (validateUpdate_symmetric DefaultUnstructuredConverter
    (templateOf "worker" { storedSpec with InstanceType := "n2d-standard-8" })
    (templateOf "worker" storedSpec)
    (templateOf "worker" { storedSpec with InstanceType := "n2d-standard-8" }).toUnstructured
    (templateOf "worker" storedSpec).toUnstructured
    [("template", Value.map [("spec", Value.map
        ({ storedSpec with InstanceType := "n2d-standard-8" } : GCPMachineSpec).toUnstructured)])]
    [("template", Value.map [("spec", Value.map storedSpec.toUnstructured)])]
    rfl rfl rfl rfl (by decide) (by decide)).2 rfl

/-- Claim C18: when both templates convert and their `spec` documents are equal,
`ValidateUpdate` accepts, whatever the rest of the two documents is and without
consulting the confidential-compute rule: an update that only renames a template
whose spec `ValidateCreate` rejects is accepted. -/
theorem validateUpdate_compares_spec_only :
    (∀ (ToUnstructured : GCPMachineTemplate → Except String Unstructured)
        (r old : GCPMachineTemplate) (newDoc oldDoc spec : Unstructured),
      ToUnstructured r = .ok newDoc → ToUnstructured old = .ok oldDoc →
      specOf newDoc = some spec → specOf oldDoc = some spec →
      Value.wellFormedMap newDoc = true →
      r.ValidateUpdate ToUnstructured old = Go.Result.returned none)
    ∧ (sameField
          (Value.mapIndex "metadata" (templateOf "worker-b" enabledMigrateSpec).toUnstructured)
          (Value.mapIndex "metadata" (templateOf "worker-a" enabledMigrateSpec).toUnstructured)
          = false
        ∧ (∀ supported,
            (templateOf "worker-b" enabledMigrateSpec).ValidateCreate supported ≠ none)
        ∧ GCPMachineTemplate.ValidateUpdate DefaultUnstructuredConverter
            (templateOf "worker-b" enabledMigrateSpec) (templateOf "worker-a" enabledMigrateSpec)
          = Go.Result.returned none) := by
  refine ⟨fun conv r old newDoc oldDoc spec hnew hold hns hos hwf => ?_, by decide,
    fun supported => ?_, by decide⟩
  · have hde : reflect.DeepEqual (deleteMutable spec) (deleteMutable spec) = true :=
      reflect.deepEqual_refl _ (deleteMutable_wellFormed (specOf_wellFormed hwf hns))
    simp [GCPMachineTemplate.ValidateUpdate, hnew, hold, hns, hos, hde]
  · simp [GCPMachineTemplate.ValidateCreate, GCPMachineTemplate.validateConfidentialCompute,
      templateOf, enabledMigrateSpec]

/-- Witness of C18: the renamed template with the rejected spec. -/
theorem validateUpdate_compares_spec_only_witness :
    GCPMachineTemplate.ValidateUpdate DefaultUnstructuredConverter
        (templateOf "worker-b" enabledMigrateSpec) (templateOf "worker-a" enabledMigrateSpec)
      = Go.Result.returned none :=
  validateUpdate_compares_spec_only.1 DefaultUnstructuredConverter
    (templateOf "worker-b" enabledMigrateSpec) (templateOf "worker-a" enabledMigrateSpec)
    (templateOf "worker-b" enabledMigrateSpec).toUnstructured
    (templateOf "worker-a" enabledMigrateSpec).toUnstructured
    [("template", Value.map [("spec", Value.map enabledMigrateSpec.toUnstructured)])]
    rfl rfl rfl rfl (by decide)
